import Mathlib

/-!
Shallow embedding of `src/warthunder_unit_cost_scraper.py`, a scraping
script built from four parts: a resilient fetcher (`fetch_with_retries`),
a listing extractor (`get_unit_urls`), a detail extractor
(`extract_total_cost`) and an orchestrator (`main`).

The network is abstracted as a sequence of per-attempt outcomes
(`Outcome`), and the HTML parser (BeautifulSoup) as a pluggable parse
function from the raw page string to the structured data the script
inspects.  All functions are translated directly from the Python source;
line numbers in the doc comments refer to that file.
-/

namespace WTScraper

/-- `MAX_RETRIES = 5`, line 25 of the source. -/
def MAX_RETRIES : Nat := 5

/-- `CONCURRENT_WORKERS = 3`, line 28 of the source. -/
def CONCURRENT_WORKERS : Nat := 3

/-- The backoff ceiling, the literal `30` in `min(backoff * 2, 30)`
(lines 54 and 63 of the source). -/
def BACKOFF_CAP : Nat := 30

/-- Outcome of one `session.get` attempt: either a transport-level
failure (`requests.RequestException`: timeout, connection reset, DNS
error), or a response carrying a status code and body text. -/
inductive Outcome where
  | exn : Outcome
  | resp (status : Nat) (text : String) : Outcome

/-- An outcome the retry loop retries on: a transport-level exception, or
a 403/405/429 status (lines 50 and 59 of the source). -/
def retryable : Outcome → Bool
  | Outcome.exn => true
  | Outcome.resp s _ => s = 403 || s = 405 || s = 429

/-- The body of the `for attempt in range(MAX_RETRIES)` loop of
`fetch_with_retries` (lines 44-64 of the source), recursing on the number
of remaining loop iterations.  `outs i` is the outcome of the `i`-th
request attempt.  Returns the result (`None` embedded as `none`), the
number of attempts actually made, and the list of backoff delays passed
to `time.sleep`, in order. -/
def fetchGo (outs : Nat → Outcome) : Nat → Nat → Nat → Option String × Nat × List Nat
  | _backoff, _attempt, 0 => (none, 0, [])
  | backoff, attempt, remaining + 1 =>
    match outs attempt with
    | Outcome.resp status text =>
      if status = 200 then
        (some text, 1, [])
      else if status = 403 ∨ status = 405 ∨ status = 429 then
        let r := fetchGo outs (min (backoff * 2) BACKOFF_CAP) (attempt + 1) remaining
        (r.1, r.2.1 + 1, backoff :: r.2.2)
      else
        (none, 1, [])
    | Outcome.exn =>
      let r := fetchGo outs (min (backoff * 2) BACKOFF_CAP) (attempt + 1) remaining
      (r.1, r.2.1 + 1, backoff :: r.2.2)

/-- `fetch_with_retries(session, url)` (lines 33-64 of the source):
`backoff` starts at 1 and the loop runs at most `MAX_RETRIES` times.  The
url and session are irrelevant to the control flow and are absorbed into
the outcome sequence `outs`. -/
def fetch_with_retries (outs : Nat → Outcome) : Option String × Nat × List Nat :=
  fetchGo outs 1 0 MAX_RETRIES

/-- The doubling-with-cap backoff schedule: the delays slept by a run of
`n` consecutive retryable failures starting from backoff `b`. -/
def backoffSeq (b : Nat) : Nat → List Nat
  | 0 => []
  | n + 1 => b :: backoffSeq (min (b * 2) BACKOFF_CAP) n

theorem fetchGo_retryAll (outs : Nat → Outcome) :
    ∀ remaining attempt backoff,
      (∀ i, i < remaining → retryable (outs (attempt + i)) = true) →
      fetchGo outs backoff attempt remaining =
        (none, remaining, backoffSeq backoff remaining) := by
  intro remaining
  induction remaining with
  | zero => intro attempt backoff _; rfl
  | succ r ih =>
    intro attempt backoff h
    have h0 : retryable (outs attempt) = true := by
      simpa using h 0 (Nat.succ_pos r)
    have hrest : ∀ i, i < r → retryable (outs (attempt + 1 + i)) = true := by
      intro i hi
      have := h (i + 1) (Nat.succ_lt_succ hi)
      simpa [Nat.add_comm, Nat.add_assoc, Nat.add_left_comm] using this
    cases hout : outs attempt with
    | exn =>
      simp only [fetchGo, hout]
      rw [ih (attempt + 1) (min (backoff * 2) BACKOFF_CAP) hrest]
      rfl
    | resp s t =>
      rw [hout] at h0
      simp only [retryable, Bool.or_eq_true, decide_eq_true_eq] at h0
      have hne200 : ¬ s = 200 := by rcases h0 with h0 | h0 | h0 <;> omega
      have hcond : s = 403 ∨ s = 405 ∨ s = 429 := by tauto
      simp only [fetchGo, hout, if_neg hne200, if_pos hcond]
      rw [ih (attempt + 1) (min (backoff * 2) BACKOFF_CAP) hrest]
      rfl

theorem fetchGo_success (outs : Nat → Outcome) (t : String) :
    ∀ n remaining attempt backoff, n < remaining →
      (∀ i, i < n → retryable (outs (attempt + i)) = true) →
      outs (attempt + n) = Outcome.resp 200 t →
      fetchGo outs backoff attempt remaining =
        (some t, n + 1, backoffSeq backoff n) := by
  intro n
  induction n with
  | zero =>
    intro remaining attempt backoff hlt _ hsucc
    cases remaining with
    | zero => omega
    | succ r =>
      rw [Nat.add_zero] at hsucc
      simp [fetchGo, hsucc, backoffSeq]
  | succ m ih =>
    intro remaining attempt backoff hlt h hsucc
    cases remaining with
    | zero => omega
    | succ r =>
      have h0 : retryable (outs attempt) = true := by
        simpa using h 0 (Nat.succ_pos m)
      have hrest : ∀ i, i < m → retryable (outs (attempt + 1 + i)) = true := by
        intro i hi
        have := h (i + 1) (Nat.succ_lt_succ hi)
        simpa [Nat.add_comm, Nat.add_assoc, Nat.add_left_comm] using this
      have hsucc' : outs (attempt + 1 + m) = Outcome.resp 200 t := by
        have : attempt + 1 + m = attempt + (m + 1) := by omega
        rw [this]; exact hsucc
      have hm : m < r := Nat.lt_of_succ_lt_succ hlt
      cases hout : outs attempt with
      | exn =>
        simp only [fetchGo, hout]
        rw [ih r (attempt + 1) (min (backoff * 2) BACKOFF_CAP) hm hrest hsucc']
        rfl
      | resp s u =>
        rw [hout] at h0
        simp only [retryable, Bool.or_eq_true, decide_eq_true_eq] at h0
        have hne200 : ¬ s = 200 := by rcases h0 with h0 | h0 | h0 <;> omega
        have hcond : s = 403 ∨ s = 405 ∨ s = 429 := by tauto
        simp only [fetchGo, hout, if_neg hne200, if_pos hcond]
        rw [ih r (attempt + 1) (min (backoff * 2) BACKOFF_CAP) hm hrest hsucc']
        rfl

theorem fetchGo_attempts_le (outs : Nat → Outcome) :
    ∀ remaining attempt backoff,
      (fetchGo outs backoff attempt remaining).2.1 ≤ remaining := by
  intro remaining
  induction remaining with
  | zero => intro attempt backoff; exact Nat.le_refl 0
  | succ r ih =>
    intro attempt backoff
    cases hout : outs attempt with
    | exn =>
      simp only [fetchGo, hout]
      exact Nat.succ_le_succ (ih (attempt + 1) (min (backoff * 2) BACKOFF_CAP))
    | resp s t =>
      simp only [fetchGo, hout]
      split
      · exact Nat.one_le_iff_ne_zero.mpr (by omega)
      · split
        · exact Nat.succ_le_succ (ih (attempt + 1) (min (backoff * 2) BACKOFF_CAP))
        · exact Nat.one_le_iff_ne_zero.mpr (by omega)

/-- One `div.wt-tree_item` of a tech tree page, as inspected by
`get_unit_urls` (lines 88-91 of the source): `href` is
`link.get("href")` of the contained `a.wt-tree_item-link`, `none` when
there is no such link or it has no `href` attribute. -/
structure TreeItem where
  href : Option String

/-- The collection loop of `get_unit_urls` (lines 87-92 of the source):
`if link and link.get("href"): urls.append(link.get("href"))`.  An empty
`href` string is falsy in Python and is skipped. -/
def collectUrls : List TreeItem → List String
  | [] => []
  | d :: rest =>
    match d.href with
    | some h => if h.isEmpty then collectUrls rest else h :: collectUrls rest
    | none => collectUrls rest

/-- `get_unit_urls(session, tech_tree_path)` (lines 66-92 of the
source), with the network abstracted as the outcome sequence `outs` and
BeautifulSoup abstracted as `parse`, which maps the fetched html to the
list of `div.wt-tree_item` elements.  `if not html: return []` tests
Python truthiness, which rejects both `None` and the empty string. -/
def get_unit_urls (outs : Nat → Outcome) (parse : String → List TreeItem) : List String :=
  match (fetch_with_retries outs).1 with
  | none => []
  | some html => if html.isEmpty then [] else collectUrls (parse html)

/-- One `div.game-unit_chars-line` of a unit page, as inspected by the
talisman loop (lines 123-134 of the source): `header` is the stripped
text of the first `span.game-unit_chars-header` descendant (`none` when
absent), `value` the text of the first `span.game-unit_chars-value`
descendant. -/
structure CharsLine where
  header : Option String
  value : Option String

/-- One `div.game-unit_chars-subline` of a unit page, as inspected by
the aces loop (lines 137-148 of the source): `firstSpan` is the text of
the first `span` descendant of any class, `value` the text of the first
`span.game-unit_chars-value` descendant. -/
structure CharsSubline where
  firstSpan : Option String
  value : Option String

/-- A unit detail page as seen by `extract_total_cost`: its
`game-unit_chars-line` divs and its `game-unit_chars-subline` divs, in
document order. -/
structure DetailPage where
  lines : List CharsLine
  sublines : List CharsSubline

/-- Python's `str.strip()`: remove whitespace from both ends, embedded
at the character-list level. -/
def pyStrip (s : String) : String :=
  String.mk (((s.toList.dropWhile Char.isWhitespace).reverse.dropWhile
    Char.isWhitespace).reverse)

/-- Base-10 value of a list of digit characters, as Python's `int`
computes it on an all-digit string. -/
def digitsToNat (cs : List Char) : Nat :=
  cs.foldl (fun n c => n * 10 + (c.toNat - Char.toNat (Char.ofNat 48))) 0

/-- `int(''.join(filter(str.isdigit, text)))` applied to
`text.replace(",", "")`, with the surrounding `try`/`except` mapping a
failed parse to 0 (lines 129-133 and 143-147 of the source).
`replace(",", "")` removes every comma and is embedded as a character
filter; the remaining string is filtered to its digit characters, and
Python's `int` on the result yields its non-negative base-10 value when
any digit is left and raises (degrading to 0) when none is. -/
def parseDigits (s : String) : Int :=
  let cleaned := (s.toList.filter (fun c => ¬ c = ',')).filter Char.isDigit
  if cleaned.isEmpty then 0 else (digitsToNat cleaned : Int)

/-- The talisman loop (lines 123-134 of the source): scan the
`game-unit_chars-line` divs for the first one whose header span's
stripped text is exactly "Talisman cost"; parse its value span if
present, then `break`.  `talisman_cost` stays 0 when no div matches or
the matching div has no value span. -/
def talismanCost : List CharsLine → Int
  | [] => 0
  | d :: rest =>
    match d.header with
    | some h =>
      if pyStrip h = "Talisman cost" then
        match d.value with
        | some v => parseDigits v
        | none => 0
      else talismanCost rest
    | none => talismanCost rest

/-- The aces loop (lines 137-148 of the source): scan the
`game-unit_chars-subline` divs for the first one whose first span's
stripped text is exactly "Aces"; parse its value span if present, then
`break`. -/
def acesCost : List CharsSubline → Int
  | [] => 0
  | d :: rest =>
    match d.firstSpan with
    | some h =>
      if pyStrip h = "Aces" then
        match d.value with
        | some v => parseDigits v
        | none => 0
      else acesCost rest
    | none => acesCost rest

/-- `extract_total_cost(session, unit_url, index, total_units)` (lines
94-154 of the source), network and parser abstracted as in
`get_unit_urls`.  `if not html: return 0` tests Python truthiness; on a
truthy page the result is `talisman_cost + aces_cost`. -/
def extract_total_cost (outs : Nat → Outcome) (parse : String → DetailPage) : Int :=
  match (fetch_with_retries outs).1 with
  | none => 0
  | some html =>
    if html.isEmpty then 0
    else
      let soup := parse html
      talismanCost soup.lines + acesCost soup.sublines

/-- The fixed category list `tech_trees` of `main` (lines 169-175 of the
source). -/
def tech_trees : List String := ["aviation", "helicopters", "ground", "ships", "boats"]

/-- The sequential collection loop of `main` (lines 177-180 of the
source): `all_unit_urls.extend(get_unit_urls(session, tree))` for each
tree in order, concatenating without deduplication. -/
def all_unit_urls (listUnits : String → List String) : List String :=
  (tech_trees.map listUnits).flatten

/-- The worker-pool aggregation of `main` (lines 185-195 of the source):
`total_cost = 0`, then `total_cost += future.result()` as each future
completes.  `completed` is the sequence of per-unit results in
completion order. -/
def run_total (completed : List Int) : Int :=
  completed.foldl (· + ·) 0

/-- The successive values taken by `total_cost` during the accumulation
loop of `main` (lines 185-195 of the source), starting from 0. -/
def runTotals (completed : List Int) : List Int :=
  completed.scanl (· + ·) 0

/-- Outcome of the warm-up request `session.get(BASE_URL, timeout=10)`
of `main` (line 164 of the source): a transport-level exception or a
response status. -/
inductive WarmupOutcome where
  | exn : WarmupOutcome
  | resp (status : Nat) : WarmupOutcome

/-- `main` (lines 156-197 of the source) at the level of the claims: the
warm-up request at line 164 is issued outside any `try` block, so a
`requests` exception raised there propagates and aborts the run before
any total is printed (modelled as `none`); any response status — 200 or
not — at most prints a `[WARN]` line (line 166) and the run continues to
the final printed total (modelled as `some` of the accumulated total). -/
def mainRun (w : WarmupOutcome) (listUnits : String → List String)
    (extract : String → Int) : Option Int :=
  match w with
  | WarmupOutcome.exn => none
  | WarmupOutcome.resp _ => some (run_total ((all_unit_urls listUnits).map extract))

theorem parseDigits_nonneg (s : String) : 0 ≤ parseDigits s := by
  simp only [parseDigits]
  split
  · exact le_refl 0
  · exact Int.natCast_nonneg _

theorem talismanCost_nonneg : ∀ ls : List CharsLine, 0 ≤ talismanCost ls := by
  intro ls
  induction ls with
  | nil => simp [talismanCost]
  | cons d rest ih =>
    cases hh : d.header with
    | none => simpa [talismanCost, hh] using ih
    | some h =>
      by_cases ht : pyStrip h = "Talisman cost"
      · cases hv : d.value with
        | none => simp [talismanCost, hh, ht, hv]
        | some v => simpa [talismanCost, hh, ht, hv] using parseDigits_nonneg v
      · simpa [talismanCost, hh, ht] using ih

theorem acesCost_nonneg : ∀ ls : List CharsSubline, 0 ≤ acesCost ls := by
  intro ls
  induction ls with
  | nil => simp [acesCost]
  | cons d rest ih =>
    cases hh : d.firstSpan with
    | none => simpa [acesCost, hh] using ih
    | some h =>
      by_cases ht : pyStrip h = "Aces"
      · cases hv : d.value with
        | none => simp [acesCost, hh, ht, hv]
        | some v => simpa [acesCost, hh, ht, hv] using parseDigits_nonneg v
      · simpa [acesCost, hh, ht] using ih

theorem extract_total_cost_nonneg (outs : Nat → Outcome) (parse : String → DetailPage) :
    0 ≤ extract_total_cost outs parse := by
  cases h : (fetch_with_retries outs).1 with
  | none => simp [extract_total_cost, h]
  | some html =>
    by_cases he : html.isEmpty
    · simp [extract_total_cost, h, he]
    · simp only [extract_total_cost, h, if_neg he]
      exact add_nonneg (talismanCost_nonneg _) (acesCost_nonneg _)

theorem foldl_add_eq (l : List Int) : ∀ init : Int, l.foldl (· + ·) init = init + l.sum := by
  induction l with
  | nil => intro init; simp
  | cons a l ih =>
    intro init
    rw [List.foldl_cons, ih (init + a), List.sum_cons]
    ring

theorem scanl_add_head (b : Int) (l : List Int) :
    (List.scanl (· + ·) b l).head? = some b := by
  cases l <;> rfl

theorem scanl_add_chain (l : List Int) :
    ∀ init : Int, (∀ c ∈ l, 0 ≤ c) →
      List.Chain' (· ≤ ·) (List.scanl (· + ·) init l) := by
  induction l with
  | nil => intro init _; simp [List.scanl]
  | cons a l ih =>
    intro init h
    have ha : 0 ≤ a := h a (List.mem_cons_self a l)
    have hrest : ∀ c ∈ l, 0 ≤ c := fun c hc => h c (List.mem_cons_of_mem a hc)
    rw [List.scanl_cons]
    simp only [List.singleton_append]
    rw [List.chain'_cons']
    refine ⟨?_, ih (init + a) hrest⟩
    intro y hy
    rw [scanl_add_head] at hy
    simp only [Option.mem_def, Option.some.injEq] at hy
    subst hy
    linarith

theorem scanl_add_last (l : List Int) :
    ∀ init : Int, (List.scanl (· + ·) init l).getLast? = some (l.foldl (· + ·) init) := by
  induction l with
  | nil => intro init; rfl
  | cons a l ih =>
    intro init
    rw [List.scanl_cons, List.foldl_cons, ← ih (init + a)]
    simp only [List.singleton_append]
    cases hl : List.scanl (· + ·) (init + a) l with
    | nil => exact absurd hl (by cases l <;> simp [List.scanl])
    | cons b l2 => rw [List.getLast?_cons_cons]

/-- Claim C3: when every one of the first `MAX_RETRIES` outcomes is a
transient or rate-limited failure, `fetch_with_retries` makes exactly
`MAX_RETRIES` attempts and returns `None`; and when the `(n+1)`-st
attempt is the first success (a 200 response) after `n` retryable
failures, it returns that attempt's content and makes exactly `n + 1`
attempts. -/
theorem fetch_retry_exhaustion_and_success (outs : Nat → Outcome) :
    ((∀ i, i < MAX_RETRIES → retryable (outs i) = true) →
      (fetch_with_retries outs).1 = none ∧ (fetch_with_retries outs).2.1 = MAX_RETRIES)
  ∧ (∀ n t, n < MAX_RETRIES → (∀ i, i < n → retryable (outs i) = true) →
      outs n = Outcome.resp 200 t →
      (fetch_with_retries outs).1 = some t ∧ (fetch_with_retries outs).2.1 = n + 1) := by
  constructor
  · intro h
    have heq := fetchGo_retryAll outs MAX_RETRIES 0 1 (fun i hi => by simpa using h i hi)
    rw [fetch_with_retries, heq]
    exact ⟨rfl, rfl⟩
  · intro n t hn h hs
    have heq := fetchGo_success outs t n MAX_RETRIES 0 1 hn
      (fun i hi => by simpa using h i hi) (by simpa using hs)
    rw [fetch_with_retries, heq]
    exact ⟨rfl, rfl⟩

theorem fetch_retry_exhaustion_and_success_witness :
    ((fetch_with_retries (fun _ => Outcome.exn)).1 = none
      ∧ (fetch_with_retries (fun _ => Outcome.exn)).2.1 = MAX_RETRIES)
  ∧ ((fetch_with_retries
        (fun k => if k < 2 then Outcome.exn else Outcome.resp 200 "ok")).1 = some "ok"
      ∧ (fetch_with_retries
          (fun k => if k < 2 then Outcome.exn else Outcome.resp 200 "ok")).2.1 = 2 + 1) := by
  constructor
  · exact (fetch_retry_exhaustion_and_success (fun _ => Outcome.exn)).1 (fun _ _ => rfl)
  · exact (fetch_retry_exhaustion_and_success _).2 2 "ok" (by decide)
      (fun i hi => by interval_cases i <;> rfl) rfl

/-- Claim C4: a non-retryable unexpected status (anything other than
200, 403, 405, 429) on the first attempt makes `fetch_with_retries`
return `None` after exactly one attempt, with no backoff sleep. -/
theorem fetch_nonretryable_immediate (outs : Nat → Outcome) (s : Nat) (t : String)
    (h0 : outs 0 = Outcome.resp s t) (h200 : s ≠ 200) (h403 : s ≠ 403)
    (h405 : s ≠ 405) (h429 : s ≠ 429) :
    fetch_with_retries outs = (none, 1, []) := by
  have hcond : ¬ (s = 403 ∨ s = 405 ∨ s = 429) := by tauto
  show fetchGo outs 1 0 MAX_RETRIES = (none, 1, [])
  rw [show MAX_RETRIES = 4 + 1 from rfl]
  simp only [fetchGo, h0, if_neg h200, if_neg hcond]

theorem fetch_nonretryable_immediate_witness :
    fetch_with_retries (fun _ => Outcome.resp 500 "err") = (none, 1, []) :=
  fetch_nonretryable_immediate (fun _ => Outcome.resp 500 "err") 500 "err" rfl
    (by decide) (by decide) (by decide) (by decide)

/-- Claim C5: during a run of consecutive retryable failures, the
delays slept by `fetch_with_retries` are `[1, 2, 4, 8, 16]`: each
successive delay is `min (previous * 2) 30` — here strictly double the
previous one, since with 5 attempts the schedule never reaches the
ceiling — and every delay stays at or below the ceiling 30. -/
theorem fetch_backoff_schedule (outs : Nat → Outcome)
    (h : ∀ i, i < MAX_RETRIES → retryable (outs i) = true) :
    (fetch_with_retries outs).2.2 = [1, 2, 4, 8, 16]
  ∧ List.Chain' (fun a b => b = min (a * 2) BACKOFF_CAP) (fetch_with_retries outs).2.2
  ∧ List.Chain' (fun a b => b = a * 2) (fetch_with_retries outs).2.2
  ∧ ∀ d ∈ (fetch_with_retries outs).2.2, d ≤ BACKOFF_CAP := by
  have heq := fetchGo_retryAll outs MAX_RETRIES 0 1 (fun i hi => by simpa using h i hi)
  have hlist : backoffSeq 1 MAX_RETRIES = [1, 2, 4, 8, 16] := by decide
  rw [fetch_with_retries, heq]
  refine ⟨hlist, ?_, ?_, ?_⟩
  · show List.Chain' (fun a b => b = min (a * 2) BACKOFF_CAP) (backoffSeq 1 MAX_RETRIES)
    rw [hlist]
    simp only [List.chain'_cons, List.chain'_singleton, and_true]
    try decide
  · show List.Chain' (fun a b => b = a * 2) (backoffSeq 1 MAX_RETRIES)
    rw [hlist]
    simp only [List.chain'_cons, List.chain'_singleton, and_true]
    try decide
  · show ∀ d ∈ backoffSeq 1 MAX_RETRIES, d ≤ BACKOFF_CAP
    rw [hlist]
    decide

theorem fetch_backoff_schedule_witness :
    (fetch_with_retries (fun _ => Outcome.exn)).2.2 = [1, 2, 4, 8, 16] :=
  (fetch_backoff_schedule (fun _ => Outcome.exn) (fun _ _ => rfl)).1

/-- Claim C8: `fetch_with_retries` is a total function: for every
outcome sequence, including one that raises a transport-level exception
on every attempt, it terminates normally with either content or `None`,
and it never makes more than `MAX_RETRIES` attempts. -/
theorem fetch_never_throws (outs : Nat → Outcome) :
    ((∃ t, (fetch_with_retries outs).1 = some t) ∨ (fetch_with_retries outs).1 = none)
  ∧ (fetch_with_retries outs).2.1 ≤ MAX_RETRIES := by
  constructor
  · cases h : (fetch_with_retries outs).1 with
    | none => exact Or.inr rfl
    | some t => exact Or.inl ⟨t, rfl⟩
  · exact fetchGo_attempts_le outs MAX_RETRIES 0 1

/-- A detail page carrying "Talisman cost" with value "1,234" and no
aces subline. -/
def pageTalismanOnly : DetailPage :=
  { lines := [{ header := some "Talisman cost", value := some "1,234" }], sublines := [] }

/-- A detail page carrying "Talisman cost: 1,000" and "Aces: 250". -/
def pageBoth : DetailPage :=
  { lines := [{ header := some "Talisman cost", value := some "1,000" }],
    sublines := [{ firstSpan := some "Aces", value := some "250" }] }

/-- A detail page with neither cost field present. -/
def pageNeither : DetailPage := { lines := [], sublines := [] }

/-- Claim C6: `extract_total_cost` returns the sum of the talisman and
aces fields, each contributing 0 when absent: a page with
"Talisman cost: 1,234" and no aces field yields 1234, a page with
"Talisman cost: 1,000" and "Aces: 250" yields 1250, a page with neither
yields 0; thousands separators and non-digit characters are stripped
before parsing. -/
theorem extract_cost_field_sum :
    extract_total_cost (fun _ => Outcome.resp 200 "unit") (fun _ => pageTalismanOnly) = 1234
  ∧ extract_total_cost (fun _ => Outcome.resp 200 "unit") (fun _ => pageBoth) = 1250
  ∧ extract_total_cost (fun _ => Outcome.resp 200 "unit") (fun _ => pageNeither) = 0
  ∧ parseDigits "1,234" = 1234
  ∧ parseDigits "GE 1,000" = 1000
  ∧ parseDigits "no digits at all" = 0
  ∧ (∀ p : DetailPage,
      extract_total_cost (fun _ => Outcome.resp 200 "unit") (fun _ => p)
        = talismanCost p.lines + acesCost p.sublines) :=
  ⟨rfl, rfl, rfl, rfl, rfl, rfl, fun _ => rfl⟩

/-- Claim C7: an `Unavailable` fetch result (`None`) is absorbed:
`get_unit_urls` returns the empty list and `extract_total_cost` returns
0, whatever the parser would have produced. -/
theorem unavailable_absorbed (outs : Nat → Outcome) (parseL : String → List TreeItem)
    (parseD : String → DetailPage) (h : (fetch_with_retries outs).1 = none) :
    get_unit_urls outs parseL = [] ∧ extract_total_cost outs parseD = 0 := by
  constructor
  · simp [get_unit_urls, h]
  · simp [extract_total_cost, h]

theorem unavailable_absorbed_witness :
    get_unit_urls (fun _ => Outcome.exn) (fun _ => []) = []
  ∧ extract_total_cost (fun _ => Outcome.exn) (fun _ => pageBoth) = 0 :=
  unavailable_absorbed (fun _ => Outcome.exn) (fun _ => []) (fun _ => pageBoth) rfl

/-- Claim C10: a successful fetch that yields empty-string content is
treated exactly like `Unavailable`, because both callers test the result
with Python truthiness (`if not html`): `get_unit_urls` returns the
empty list and `extract_total_cost` returns 0. -/
theorem empty_content_like_unavailable (outs : Nat → Outcome)
    (parseL : String → List TreeItem) (parseD : String → DetailPage)
    (h : (fetch_with_retries outs).1 = some "") :
    get_unit_urls outs parseL = [] ∧ extract_total_cost outs parseD = 0 := by
  have he : ("" : String).isEmpty = true := rfl
  constructor
  · simp [get_unit_urls, h, he]
  · simp [extract_total_cost, h, he]

theorem empty_content_like_unavailable_witness :
    get_unit_urls (fun _ => Outcome.resp 200 "") (fun _ => []) = []
  ∧ extract_total_cost (fun _ => Outcome.resp 200 "") (fun _ => pageBoth) = 0 :=
  empty_content_like_unavailable (fun _ => Outcome.resp 200 "") (fun _ => [])
    (fun _ => pageBoth) rfl

/-- Claim C9: every cost produced by `extract_total_cost` is
non-negative; hence the successive values of `total_cost` during the
accumulation loop never decrease, the final value equals the sum of the
costs of all processed item references, and a failed fetch (here: a
transport exception on every attempt) contributes 0 rather than aborting
the run. -/
theorem cost_nonneg_total_monotone (outsOf : String → Nat → Outcome)
    (parse : String → DetailPage) (urls : List String) :
    (∀ u : String, 0 ≤ extract_total_cost (outsOf u) parse)
  ∧ List.Chain' (· ≤ ·) (runTotals (urls.map fun u => extract_total_cost (outsOf u) parse))
  ∧ (runTotals (urls.map fun u => extract_total_cost (outsOf u) parse)).getLast?
      = some ((urls.map fun u => extract_total_cost (outsOf u) parse).sum)
  ∧ extract_total_cost (fun _ => Outcome.exn) parse = 0 := by
  refine ⟨fun u => extract_total_cost_nonneg _ _, ?_, ?_, rfl⟩
  · refine scanl_add_chain _ 0 ?_
    intro c hc
    rw [List.mem_map] at hc
    obtain ⟨u, _, hceq⟩ := hc
    rw [← hceq]
    exact extract_total_cost_nonneg _ _
  · rw [runTotals, scanl_add_last]
    rw [foldl_add_eq]
    rw [zero_add]

/-- Claim C2: the final total of the accumulation loop equals the sum of
the cost figures of all collected item references, whatever order the
worker pool completes them in (any permutation of the dispatched list),
with duplicate references counted once per occurrence; when every detail
extraction returns the fixed value `V` over `N` references, the total is
`N * V`. -/
theorem run_total_sum (urls : List String) (f : String → Int)
    (completed : List Int) (hperm : completed.Perm (urls.map f)) :
    run_total completed = (urls.map f).sum
  ∧ ∀ V : Int, (∀ u, f u = V) → run_total completed = urls.length * V := by
  have hsum : run_total completed = completed.sum := by
    rw [run_total, foldl_add_eq, zero_add]
  have hps := hperm.sum_eq
  constructor
  · rw [hsum, hps]
  · intro V hV
    have hmap : urls.map f = urls.map (fun _ => V) :=
      List.map_congr_left (fun u _ => hV u)
    rw [hsum, hps, hmap, List.map_const', List.sum_replicate, nsmul_eq_mul]

theorem run_total_sum_witness :
    run_total [5, 5] = ((["a", "b"].map fun _ => (5 : Int)).sum)
  ∧ run_total [5, 5] = (["a", "b"] : List String).length * 5 := by
  have h := run_total_sum ["a", "b"] (fun _ => (5 : Int)) [5, 5] (List.Perm.refl _)
  exact ⟨h.1, h.2 5 (fun _ => rfl)⟩

/-- Counterexample to claim C1 as stated: a transport-level failure of
the warm-up request is not merely logged — `main` issues it outside any
`try` block, so the exception aborts the run and no total is printed.
At the concrete input (warm-up outcome = exception, empty listings,
zero-cost extraction) the run produces no total. -/
theorem warmup_exception_aborts :
    mainRun WarmupOutcome.exn (fun _ => []) (fun _ => 0) = none
  ∧ ¬ ∀ w : WarmupOutcome, ∃ total : Int,
      mainRun w (fun _ => []) (fun _ => 0) = some total := by
  refine ⟨rfl, fun h => ?_⟩
  obtain ⟨total, htotal⟩ := h WarmupOutcome.exn
  simp [mainRun] at htotal

/-- Claim C1, amended: the warm-up is best-effort only with respect to
its response status — any status, success or not, at most logs a warning
and the run continues to completion and reports the accumulated total;
a transport-level failure of the warm-up request, by contrast, raises an
uncaught exception and aborts the run before a total is printed. -/
theorem warmup_status_nonfatal (listUnits : String → List String)
    (extract : String → Int) (s : Nat) :
    mainRun (WarmupOutcome.resp s) listUnits extract
      = some (run_total ((all_unit_urls listUnits).map extract))
  ∧ mainRun WarmupOutcome.exn listUnits extract = none :=
  ⟨rfl, rfl⟩

end WTScraper
